import Mathlib

/-!
# Verification of the graph workflow engine API (`src/app/main.py`)

Shallow embedding of the FastAPI layer in `app/main.py` and of the
`GraphEngine` component it drives.  The FastAPI layer (request models,
validation in `create_graph`, the `run_graph` and `get_run_state`
handlers) is translated directly from `src/app/main.py`.  The engine
itself (`app/engine/graph_engine.py`) is not part of the provided
sources, so its operations are modelled from the specification
(sections 3, 4.2, 4.3, 4.5 of the spec); each such definition carries a
doc comment starting with `Modelled from the spec:`.

Python dictionaries are modelled as insertion-ordered association
lists, HTTP exceptions as an `Except` error carrying the status code
and detail message, and the process-wide mutable engine as explicit
state passing (handlers that mutate the engine return the new engine).
-/

set_option autoImplicit false

namespace Workflow

/-- JSON-like values stored in a run's state (`Dict[str, Any]` in the
source).  The engine never inspects these values; two constructors are
enough to keep equality decidable for concrete test inputs. -/
inductive Value where
  | vnat : Nat → Value
  | vstr : String → Value
deriving DecidableEq, Repr

/-- A run state: a string-keyed mapping, modelled as an
insertion-ordered association list (Python `dict`). -/
abbrev StateMap := List (String × Value)

/-- A tool: an opaque callable from state to state that may fail
(`state → state, fails` in the spec's data model). -/
def Tool := StateMap → Except String StateMap

/-- Modelled from the spec: `ToolRegistry` is a mapping from tool name
to tool (`app/engine/graph_engine.py` is absent from the sources). -/
abbrev ToolRegistry := List (String × Tool)

/-- Modelled from the spec: `ToolRegistry` lookup-by-name
(`resolve(name) → tool`, absent if unregistered). -/
def ToolRegistry.resolve (reg : ToolRegistry) (name : String) : Option Tool :=
  List.lookup name reg

/-- Modelled from the spec: a validated, immutable `Graph` — nodes
(name → tool name), edges (name → optional successor), start node,
and a generated identifier. -/
structure Graph where
  graph_id : String
  nodes : List (String × String)
  edges : List (String × Option String)
  start_node : String
deriving DecidableEq, Repr

/-- Modelled from the spec: run status literals `{running, success, error}`
(`RunStatus` imported by `app/main.py`). -/
inductive RunStatus where
  | running
  | success
  | error
deriving DecidableEq, Repr

/-- Modelled from the spec: a step record `{node, tool, state}` of a
run's log, the state being the snapshot after the node executed. -/
structure LogRecord where
  node : String
  tool : String
  state : StateMap
deriving DecidableEq, Repr

/-- Modelled from the spec: a `Run` — one execution of a Graph with its
identifier, owning graph, current position, accumulated state, ordered
log, terminal status and optional error message. -/
structure Run where
  run_id : String
  graph : Graph
  current_node : Option String
  state : StateMap
  log : List LogRecord
  status : RunStatus
  error : Option String
deriving DecidableEq, Repr

/-- Modelled from the spec: the `GraphEngine`'s owned collections — the
tool registry, the graph table, the run table, and a counter from which
fresh identifiers are generated. -/
structure GraphEngine where
  registry : ToolRegistry
  graphs : List (String × Graph)
  runs : List (String × Run)
  counter : Nat

/-- Modelled from the spec (§4.3, traversal loop of `start_run`): at
each step, if the current node is null the run succeeds; otherwise the
node's tool name is resolved via the graph's nodes (an unknown node —
possible only for graphs built outside validation — terminates with an
`unknown next node` error, the check the spec places at the advance
step), the tool is resolved via the registry (unresolved terminates
with an `unknown tool` error, no log entry appended), the tool is
invoked (failure terminates with the tool's message, no log entry
appended), the state is replaced by the tool's result, a log entry is
appended, and the current node advances along the edge (absent edge
means terminal).  The spec notes the loop has no step bound and may
not terminate on cyclic graphs; `fuel` makes the model total, a run
returned with `fuel` exhausted still carrying status `running`. -/
def traverse (reg : ToolRegistry) (g : Graph) : Nat → Run → Run
  | 0, run => run
  | fuel + 1, run =>
    match run.current_node with
    | none => { run with status := RunStatus.success }
    | some node =>
      match List.lookup node g.nodes with
      | none =>
        { run with status := RunStatus.error,
                   error := some ("unknown next node: " ++ node) }
      | some toolName =>
        match reg.resolve toolName with
        | none =>
          { run with status := RunStatus.error,
                     error := some ("unknown tool: " ++ toolName) }
        | some tool =>
          match tool run.state with
          | Except.error msg =>
            { run with status := RunStatus.error, error := some msg }
          | Except.ok newState =>
            traverse reg g fuel
              { run with
                  state := newState,
                  log := run.log ++ [⟨node, toolName, newState⟩],
                  current_node := (List.lookup node g.edges).getD none }

/-- Modelled from the spec (§4.2): `GraphEngine.create_graph` stores an
immutable Graph under a freshly generated identifier and returns the
identifier.  Validation of the inputs is performed by the caller in
`app/main.py` (translated below as `create_graph`). -/
def GraphEngine.create_graph (e : GraphEngine) (nodes : List (String × String))
    (edges : List (String × Option String)) (start_node : String) :
    String × GraphEngine :=
  let gid := "g" ++ toString e.counter
  let g : Graph := ⟨gid, nodes, edges, start_node⟩
  (gid, { e with graphs := e.graphs ++ [(gid, g)], counter := e.counter + 1 })

/-- Modelled from the spec (§4.3): `GraphEngine.start_run` looks the
graph up by id (failing with a not-found error if absent — surfaced as
a `KeyError` caught in `app/main.py`), creates a fresh Run positioned
at the start node with the given initial state, drives the traversal
loop to termination, stores the terminated Run, and returns it. -/
def GraphEngine.start_run (e : GraphEngine) (fuel : Nat) (graph_id : String)
    (initial_state : StateMap) : Except String (Run × GraphEngine) :=
  match List.lookup graph_id e.graphs with
  | none => Except.error ("Graph not found: " ++ graph_id)
  | some g =>
    let rid := "r" ++ toString e.counter
    let run0 : Run :=
      ⟨rid, g, some g.start_node, initial_state, [], RunStatus.running, none⟩
    let run := traverse e.registry g fuel run0
    Except.ok (run, { e with runs := e.runs ++ [(rid, run)], counter := e.counter + 1 })

/-- Modelled from the spec (§4.5): `GraphEngine.get_run` returns the
stored Run by id, failing with a not-found error if absent (surfaced
as a `KeyError` caught in `app/main.py`); it does not modify the
engine. -/
def GraphEngine.get_run (e : GraphEngine) (run_id : String) : Except String Run :=
  match List.lookup run_id e.runs with
  | none => Except.error ("Run not found: " ++ run_id)
  | some r => Except.ok r

/-! ## The API layer, translated from `src/app/main.py` -/

/-- The `NodeConfig` request model: node name and tool name. -/
structure NodeConfig where
  name : String
  tool : String
deriving DecidableEq, Repr

/-- The `CreateGraphRequest` model: node list, edge mapping
(`from_node -> to_node or null`), and start node. -/
structure CreateGraphRequest where
  nodes : List NodeConfig
  edges : List (String × Option String)
  start_node : String
deriving DecidableEq, Repr

/-- The `CreateGraphResponse` model: the created graph's identifier. -/
structure CreateGraphResponse where
  graph_id : String
deriving DecidableEq, Repr

/-- The `RunGraphRequest` model: graph id plus the initial state. -/
structure RunGraphRequest where
  graph_id : String
  initial_state : StateMap
deriving DecidableEq, Repr

/-- Construction of a `RunGraphRequest` from the wire: the
`initial_state` field is declared with `default_factory=dict`, so an
omitted field (`none` here) defaults to the empty mapping. -/
def mkRunGraphRequest (graph_id : String) (initial_state : Option StateMap) :
    RunGraphRequest :=
  ⟨graph_id, initial_state.getD []⟩

/-- The `LogEntry` response model: exactly the fields `node`, `tool`,
`state`. -/
structure LogEntry where
  node : String
  tool : String
  state : StateMap
deriving DecidableEq, Repr

/-- The `RunGraphResponse` response model of `run_graph`. -/
structure RunGraphResponse where
  run_id : String
  graph_id : String
  final_state : StateMap
  log : List LogEntry
  status : RunStatus
  error : Option String
deriving DecidableEq, Repr

/-- The `GetRunStateResponse` response model of `get_run_state`. -/
structure GetRunStateResponse where
  run_id : String
  graph_id : String
  current_node : Option String
  state : StateMap
  log : List LogEntry
  status : RunStatus
  error : Option String
deriving DecidableEq, Repr

/-- The serialized field names of `RunGraphResponse`, in declaration
order (the pydantic model's wire shape). -/
def runGraphResponseFields : List String :=
  ["run_id", "graph_id", "final_state", "log", "status", "error"]

/-- The serialized field names of `GetRunStateResponse`, in declaration
order (the pydantic model's wire shape). -/
def getRunStateResponseFields : List String :=
  ["run_id", "graph_id", "current_node", "state", "log", "status", "error"]

/-- An HTTP error response (`HTTPException(status_code, detail)`). -/
structure HttpError where
  status_code : Nat
  detail : String
deriving DecidableEq, Repr

/-- Detail message of the duplicate-node validation failure
(`f"Duplicate node name: {node.name}"`). -/
def dupNodeMsg (n : String) : String := "Duplicate node name: " ++ n

/-- Detail message of the unknown-edge-source validation failure
(`f"Unknown node in edges: {from_node}"`). -/
def unknownEdgeMsg (n : String) : String := "Unknown node in edges: " ++ n

/-- Detail message of the unknown-edge-target validation failure
(`f"Unknown next node: {to_node}"`). -/
def unknownNextMsg (n : String) : String := "Unknown next node: " ++ n

/-- Detail message of the invalid-start-node validation failure. -/
def badStartMsg : String := "start_node must be one of the nodes"

/-- The first loop of `create_graph`: build `nodes_map`
(node name → tool name) from the node list, raising 400 with
`dupNodeMsg` on the first duplicated name. -/
def buildNodesMap : List NodeConfig → List (String × String) →
    Except HttpError (List (String × String))
  | [], acc => Except.ok acc
  | node :: rest, acc =>
    if (List.lookup node.name acc).isSome then
      Except.error ⟨400, dupNodeMsg node.name⟩
    else
      buildNodesMap rest (acc ++ [(node.name, node.tool)])

/-- The second loop of `create_graph`: for each edge in order, check
the source is in `nodes_map` (else 400 with `unknownEdgeMsg`), then
that a non-null target is in `nodes_map` (else 400 with
`unknownNextMsg`). -/
def validateEdges (nodesMap : List (String × String)) :
    List (String × Option String) → Except HttpError Unit
  | [] => Except.ok ()
  | (from_node, to_node) :: rest =>
    if (List.lookup from_node nodesMap).isNone then
      Except.error ⟨400, unknownEdgeMsg from_node⟩
    else
      match to_node with
      | some t =>
        if (List.lookup t nodesMap).isNone then
          Except.error ⟨400, unknownNextMsg t⟩
        else
          validateEdges nodesMap rest
      | none => validateEdges nodesMap rest

/-- The `create_graph` endpoint handler: build `nodes_map` (rejecting
duplicates), validate the edges, check the start node, then store the
graph in the engine and return its id. -/
def create_graph (e : GraphEngine) (req : CreateGraphRequest) :
    Except HttpError (CreateGraphResponse × GraphEngine) := do
  let nodesMap ← buildNodesMap req.nodes []
  let _ ← validateEdges nodesMap req.edges
  if (List.lookup req.start_node nodesMap).isNone then
    Except.error ⟨400, badStartMsg⟩
  else
    let (gid, e') := e.create_graph nodesMap req.edges req.start_node
    Except.ok (⟨gid⟩, e')

/-- The list comprehension shared by `run_graph` and `get_run_state`:
project each stored log record into a response `LogEntry`, preserving
order. -/
def mkLogEntries (log : List LogRecord) : List LogEntry :=
  log.map (fun r => ⟨r.node, r.tool, r.state⟩)

/-- The response constructed by `run_graph` from a run. -/
def mkRunGraphResponse (run : Run) : RunGraphResponse :=
  ⟨run.run_id, run.graph.graph_id, run.state, mkLogEntries run.log,
   run.status, run.error⟩

/-- The `run_graph` endpoint handler: start a run (a `KeyError` from
the engine's graph lookup becomes a 404), then return the run's data
as a `RunGraphResponse`. -/
def run_graph (e : GraphEngine) (fuel : Nat) (req : RunGraphRequest) :
    Except HttpError (RunGraphResponse × GraphEngine) :=
  match e.start_run fuel req.graph_id req.initial_state with
  | Except.error msg => Except.error ⟨404, msg⟩
  | Except.ok (run, e') => Except.ok (mkRunGraphResponse run, e')

/-- The response constructed by `get_run_state` from a run. -/
def mkGetRunStateResponse (run : Run) : GetRunStateResponse :=
  ⟨run.run_id, run.graph.graph_id, run.current_node, run.state,
   mkLogEntries run.log, run.status, run.error⟩

/-- The `get_run_state` endpoint handler: look the run up (a
`KeyError` becomes a 404) and return its data; the engine is returned
unchanged (the handler performs no mutation). -/
def get_run_state (e : GraphEngine) (run_id : String) :
    Except HttpError (GetRunStateResponse × GraphEngine) :=
  match e.get_run run_id with
  | Except.error msg => Except.error ⟨404, msg⟩
  | Except.ok run => Except.ok (mkGetRunStateResponse run, e)

/-! ## Specification-side definitions

Re-phrasings of the validation and traversal behaviour used to state
the claims, plus concrete inputs for the witness theorems. -/

/-- The first node name (in node-list order) that repeats an earlier
one: the name the duplicate-node check of `create_graph` trips on. -/
def firstDupName : List String → List NodeConfig → Option String
  | _, [] => none
  | seen, node :: rest =>
    if seen.contains node.name then some node.name
    else firstDupName (seen ++ [node.name]) rest

/-- The first edge-validation failure in the order the handler checks
them: for each edge in mapping order, the source check, then the
non-null-target check. -/
def edgeCheck (names : List String) : List (String × Option String) → Option HttpError
  | [] => none
  | (from_node, to_node) :: rest =>
    if names.contains from_node then
      match to_node with
      | some t =>
        if names.contains t then edgeCheck names rest
        else some ⟨400, unknownNextMsg t⟩
      | none => edgeCheck names rest
    else some ⟨400, unknownEdgeMsg from_node⟩

/-- The validation order the handler implements: duplicate node names
in node-list order; then each edge in mapping order, its source before
its target; then the start node.  Returns the first failure. -/
def implValidationOrder (req : CreateGraphRequest) : Option HttpError :=
  match firstDupName [] req.nodes with
  | some n => some ⟨400, dupNodeMsg n⟩
  | none =>
    let names := req.nodes.map NodeConfig.name
    match edgeCheck names req.edges with
    | some err => some err
    | none =>
      if names.contains req.start_node then none
      else some ⟨400, badStartMsg⟩

/-- The validation order as the specification phrases it: (1) no
duplicate node names, then (2) every edge source is a known node, then
(3) every non-null edge target is a known node, then (4) the start
node is known — with phase (2) checked in full before phase (3), the
first failing check producing the error. -/
def specOrderValidate (req : CreateGraphRequest) : Option HttpError :=
  match firstDupName [] req.nodes with
  | some n => some ⟨400, dupNodeMsg n⟩
  | none =>
    let names := req.nodes.map NodeConfig.name
    match req.edges.find? (fun p => !(names.contains p.1)) with
    | some p => some ⟨400, unknownEdgeMsg p.1⟩
    | none =>
      match (req.edges.filterMap Prod.snd).find? (fun t => !(names.contains t)) with
      | some t => some ⟨400, unknownNextMsg t⟩
      | none =>
        if names.contains req.start_node then none
        else some ⟨400, badStartMsg⟩

/-- The sequence of log records a traversal starting at the given
position and state appends: one record per successfully executed node,
in visitation order, and no record for the step at which the traversal
fails (unknown node, unknown tool, or tool failure). -/
def visitTrace (reg : ToolRegistry) (g : Graph) : Nat → Option String → StateMap → List LogRecord
  | 0, _, _ => []
  | _ + 1, none, _ => []
  | fuel + 1, some node, st =>
    match List.lookup node g.nodes with
    | none => []
    | some toolName =>
      match reg.resolve toolName with
      | none => []
      | some tool =>
        match tool st with
        | Except.error _ => []
        | Except.ok st' =>
          ⟨node, toolName, st'⟩ ::
            visitTrace reg g fuel ((List.lookup node g.edges).getD none) st'

/-! ## Concrete inputs for the witness theorems -/

/-- A tool that returns its input state unchanged (the spec's `echo`
tool of Scenario A). -/
def echoTool : Tool := fun s => Except.ok s

/-- An engine with nothing registered and nothing stored. -/
def emptyEngine : GraphEngine := ⟨[], [], [], 0⟩

/-- A one-node graph whose node is bound to an unregistered tool. -/
def demoGraph : Graph := ⟨"g1", [("a", "missing")], [], "a"⟩

/-- An engine holding `demoGraph`, with only `echo` registered. -/
def demoEngine : GraphEngine := ⟨[("echo", echoTool)], [("g1", demoGraph)], [], 0⟩

/-- A two-node linear graph `a → b`, both nodes bound to `echo`. -/
def lineGraph : Graph :=
  ⟨"g2", [("a", "echo"), ("b", "echo")], [("a", some "b"), ("b", none)], "a"⟩

/-- An engine holding `lineGraph`, with `echo` registered. -/
def lineEngine : GraphEngine := ⟨[("echo", echoTool)], [("g2", lineGraph)], [], 0⟩

/-- A create request on which the spec's phase order and the handler's
per-edge order disagree: nodes `a`, `b`; edges `a → c` (unknown
target) then `d → b` (unknown source); start `a`. -/
def reqPhaseOrder : CreateGraphRequest :=
  ⟨[⟨"a", "echo"⟩, ⟨"b", "echo"⟩], [("a", some "c"), ("d", some "b")], "a"⟩

/-- A create request whose single edge has the unknown target `c`
(the spec's Scenario B). -/
def reqUnknownTarget : CreateGraphRequest :=
  ⟨[⟨"a", "echo"⟩, ⟨"b", "echo"⟩], [("a", some "c")], "a"⟩

/-- A completed run over `lineGraph`, as stored after a successful
two-step traversal from the empty initial state. -/
def doneRun : Run :=
  ⟨"r0", lineGraph, none, [],
   [⟨"a", "echo", []⟩, ⟨"b", "echo", []⟩], RunStatus.success, none⟩

/-- An engine holding the completed run `doneRun` in its run table. -/
def doneEngine : GraphEngine := ⟨[], [], [("r0", doneRun)], 1⟩

/-- A create request with an empty node list. -/
def reqEmptyNodes : CreateGraphRequest := ⟨[], [("a", some "b")], "a"⟩

/-- The engine state after `lineEngine` has run `lineGraph` once from
the empty initial state. -/
def lineEngineAfter : GraphEngine :=
  ⟨lineEngine.registry, lineEngine.graphs, [("r0", doneRun)], 1⟩

/-! ## Helper lemmas -/

theorem lookup_isSome_eq_contains {β : Type} (x : String) :
    ∀ (m : List (String × β)), (List.lookup x m).isSome = (m.map Prod.fst).contains x
  | [] => rfl
  | (k, v) :: rest => by
    simp only [List.lookup, List.map_cons, List.contains_cons]
    cases h : x == k with
    | true => simp [h]
    | false => simp [h, lookup_isSome_eq_contains x rest]

theorem buildNodesMap_eq : ∀ (nodes : List NodeConfig) (acc : List (String × String)),
    buildNodesMap nodes acc =
      match firstDupName (acc.map Prod.fst) nodes with
      | some n => Except.error ⟨400, dupNodeMsg n⟩
      | none => Except.ok (acc ++ nodes.map (fun nc => (nc.name, nc.tool)))
  | [], acc => by simp [buildNodesMap, firstDupName]
  | node :: rest, acc => by
    simp only [buildNodesMap, firstDupName, lookup_isSome_eq_contains]
    cases h : (acc.map Prod.fst).contains node.name with
    | true => simp [h]
    | false =>
      have ih := buildNodesMap_eq rest (acc ++ [(node.name, node.tool)])
      simp only [h, Bool.false_eq_true, if_false, ite_false, ih, List.map_append]
      simp

theorem validateEdges_eq (m : List (String × String)) :
    ∀ (edges : List (String × Option String)),
    validateEdges m edges =
      match edgeCheck (m.map Prod.fst) edges with
      | some err => Except.error err
      | none => Except.ok ()
  | [] => by simp [validateEdges, edgeCheck]
  | (from_node, to_node) :: rest => by
    have hf := lookup_isSome_eq_contains (β := String) from_node m
    cases hl : List.lookup from_node m with
    | none =>
      rw [hl] at hf
      have hf' : (m.map Prod.fst).contains from_node = false := hf.symm.trans rfl
      simp [validateEdges, edgeCheck, hl]
      rw [hf']
      simp
    | some tv =>
      rw [hl] at hf
      have hf' : (m.map Prod.fst).contains from_node = true := hf.symm.trans rfl
      cases to_node with
      | none =>
        simp [validateEdges, edgeCheck, hl]
        rw [hf']
        simpa using validateEdges_eq m rest
      | some t =>
        have ht := lookup_isSome_eq_contains (β := String) t m
        cases hlt : List.lookup t m with
        | none =>
          rw [hlt] at ht
          have ht' : (m.map Prod.fst).contains t = false := ht.symm.trans rfl
          simp [validateEdges, edgeCheck, hl, hlt]
          rw [hf', ht']
          simp
        | some tv2 =>
          rw [hlt] at ht
          have ht' : (m.map Prod.fst).contains t = true := ht.symm.trans rfl
          simp [validateEdges, edgeCheck, hl, hlt]
          rw [hf', ht']
          simpa using validateEdges_eq m rest

theorem create_graph_eq (e : GraphEngine) (req : CreateGraphRequest) :
    create_graph e req =
      match implValidationOrder req with
      | some err => Except.error err
      | none =>
        Except.ok (⟨(e.create_graph (req.nodes.map (fun nc => (nc.name, nc.tool)))
            req.edges req.start_node).1⟩,
          (e.create_graph (req.nodes.map (fun nc => (nc.name, nc.tool)))
            req.edges req.start_node).2) := by
  have hb := buildNodesMap_eq req.nodes []
  simp only [List.map_nil, List.nil_append] at hb
  unfold create_graph implValidationOrder
  rw [hb]
  cases hd : firstDupName [] req.nodes with
  | some n => simp [Bind.bind, Except.bind]
  | none =>
    have hv := validateEdges_eq (req.nodes.map fun nc => (nc.name, nc.tool)) req.edges
    simp only [List.map_map] at hv
    have hcomp : (Prod.fst ∘ fun nc => (nc.name, nc.tool)) = NodeConfig.name := rfl
    rw [hcomp] at hv
    simp only [Bind.bind, Except.bind]
    rw [hv]
    cases hc : edgeCheck (req.nodes.map NodeConfig.name) req.edges with
    | some err => simp
    | none =>
      simp only
      have hs := lookup_isSome_eq_contains (β := String) req.start_node
        (req.nodes.map fun nc => (nc.name, nc.tool))
      simp only [List.map_map, hcomp] at hs
      cases hcs : (req.nodes.map NodeConfig.name).contains req.start_node with
      | true =>
        rw [hcs] at hs
        have : (List.lookup req.start_node (req.nodes.map fun nc => (nc.name, nc.tool))).isNone = false := by
          cases h2 : List.lookup req.start_node (req.nodes.map fun nc => (nc.name, nc.tool)) with
          | none => rw [h2] at hs; exact absurd hs (by decide)
          | some v => rfl
        rw [this]
        simp
      | false =>
        rw [hcs] at hs
        have : (List.lookup req.start_node (req.nodes.map fun nc => (nc.name, nc.tool))).isNone = true := by
          cases h2 : List.lookup req.start_node (req.nodes.map fun nc => (nc.name, nc.tool)) with
          | none => rfl
          | some v => rw [h2] at hs; simp at hs
        rw [this]
        simp

theorem edgeCheck_ne_none (names : List String) :
    ∀ (edges : List (String × Option String)),
    (∃ p ∈ edges, p.1 ∉ names ∨ ∃ t, p.2 = some t ∧ t ∉ names) →
    edgeCheck names edges ≠ none
  | [], h => by simp at h
  | (f, none) :: rest, h => by
    rw [edgeCheck]
    by_cases hf : names.contains f
    · rw [if_pos hf]
      apply edgeCheck_ne_none names rest
      rcases h with ⟨p, hp, hbad⟩
      rcases List.mem_cons.mp hp with heq | hmem
      · subst heq
        rcases hbad with hb | ⟨tn, htn, _⟩
        · exact absurd (List.elem_iff.mp hf) hb
        · simp at htn
      · exact ⟨p, hmem, hbad⟩
    · rw [if_neg hf]
      simp
  | (f, some tn) :: rest, h => by
    rw [edgeCheck]
    by_cases hf : names.contains f
    · rw [if_pos hf]
      by_cases htn : names.contains tn
      · rw [if_pos htn]
        apply edgeCheck_ne_none names rest
        rcases h with ⟨p, hp, hbad⟩
        rcases List.mem_cons.mp hp with heq | hmem
        · subst heq
          rcases hbad with hb | ⟨tn2, htn2, hb2⟩
          · exact absurd (List.elem_iff.mp hf) hb
          · simp only [Option.some.injEq] at htn2
            subst htn2
            exact absurd (List.elem_iff.mp htn) hb2
        · exact ⟨p, hmem, hbad⟩
      · rw [if_neg htn]
        simp
    · rw [if_neg hf]
      simp

theorem traverse_log (reg : ToolRegistry) (g : Graph) :
    ∀ (fuel : Nat) (run : Run),
      (traverse reg g fuel run).log =
        run.log ++ visitTrace reg g fuel run.current_node run.state
  | 0, run => by simp [traverse, visitTrace]
  | fuel + 1, run => by
    cases hc : run.current_node with
    | none => simp [traverse, visitTrace, hc]
    | some node =>
      cases hn : List.lookup node g.nodes with
      | none => simp [traverse, visitTrace, hc, hn]
      | some toolName =>
        cases hr : reg.resolve toolName with
        | none => simp [traverse, visitTrace, hc, hn, hr]
        | some tool =>
          cases ht : tool run.state with
          | error msg => simp [traverse, visitTrace, hc, hn, hr, ht]
          | ok st' =>
            have ih := traverse_log reg g fuel
              { run with state := st', log := run.log ++ [⟨node, toolName, st'⟩],
                         current_node := (List.lookup node g.edges).getD none }
            simp only [traverse, visitTrace, hc, hn, hr, ht]
            rw [ih]
            simp

theorem traverse_success_current_none (reg : ToolRegistry) (g : Graph) :
    ∀ (fuel : Nat) (run : Run), run.status = RunStatus.running →
      (traverse reg g fuel run).status = RunStatus.success →
      (traverse reg g fuel run).current_node = none
  | 0, run, hr, hs => by
    rw [traverse] at hs
    rw [hr] at hs
    exact absurd hs (by decide)
  | fuel + 1, run, hr, hs => by
    cases hc : run.current_node with
    | none => simp [traverse, hc]
    | some node =>
      cases hn : List.lookup node g.nodes with
      | none =>
        simp only [traverse, hc, hn] at hs ⊢
        exact absurd hs (by decide)
      | some toolName =>
        cases hre : reg.resolve toolName with
        | none =>
          simp only [traverse, hc, hn, hre] at hs ⊢
          exact absurd hs (by decide)
        | some tool =>
          cases ht : tool run.state with
          | error msg =>
            simp only [traverse, hc, hn, hre, ht] at hs ⊢
            exact absurd hs (by decide)
          | ok st' =>
            simp only [traverse, hc, hn, hre, ht] at hs ⊢
            exact traverse_success_current_none reg g fuel _ hr hs

theorem start_run_success_current_none (e : GraphEngine) (fuel : Nat) (gid : String)
    (st : StateMap) (run : Run) (e' : GraphEngine)
    (h : e.start_run fuel gid st = Except.ok (run, e'))
    (hs : run.status = RunStatus.success) : run.current_node = none := by
  unfold GraphEngine.start_run at h
  cases hl : List.lookup gid e.graphs with
  | none => rw [hl] at h; cases h
  | some g =>
    rw [hl] at h
    simp only [Except.ok.injEq, Prod.mk.injEq] at h
    obtain ⟨h1, h2⟩ := h
    subst h1
    exact traverse_success_current_none e.registry g fuel _ rfl hs

theorem take_ne_append {a b n m : List Char} {k : Nat} (ha : k ≤ a.length)
    (hb : k ≤ b.length) (hne : a.take k ≠ b.take k) : a ++ n ≠ b ++ m := by
  intro h
  apply hne
  have h2 := congrArg (List.take k) h
  rwa [List.take_append_of_le_length ha, List.take_append_of_le_length hb] at h2

theorem string_append_ne (a b n m : String) (k : Nat) (ha : k ≤ a.data.length)
    (hb : k ≤ b.data.length) (hne : a.data.take k ≠ b.data.take k) :
    a ++ n ≠ b ++ m := by
  intro h
  have h2 := congrArg String.data h
  rw [String.data_append, String.data_append] at h2
  exact take_ne_append ha hb hne h2

theorem string_append_ne_right (a b n : String) (k : Nat) (ha : k ≤ a.data.length)
    (hb : k ≤ b.data.length) (hne : a.data.take k ≠ b.data.take k) :
    a ++ n ≠ b := by
  intro h
  have h2 := congrArg String.data h
  rw [String.data_append] at h2
  rw [← List.append_nil b.data] at h2
  exact take_ne_append ha hb hne h2

/-! ## Claim theorems -/

/-- C1: for every run request whose graph id resolves to a stored
graph, `run_graph` returns a successful (non-raising) response, and
the response's `status` and `error` fields are exactly those of the
run the engine produced — run-time traversal failures (unknown tool,
tool failure, malformed next-node reference) are returned as data, not
raised. -/
theorem run_graph_traversal_error_is_data (e : GraphEngine) (fuel : Nat)
    (req : RunGraphRequest)
    (h : (List.lookup req.graph_id e.graphs).isSome = true) :
    ∃ resp e', run_graph e fuel req = Except.ok (resp, e')
      ∧ ∀ run e₂,
          e.start_run fuel req.graph_id req.initial_state = Except.ok (run, e₂) →
          resp.status = run.status ∧ resp.error = run.error := by
  cases hl : List.lookup req.graph_id e.graphs with
  | none => rw [hl] at h; cases h
  | some g =>
    unfold run_graph GraphEngine.start_run
    rw [hl]
    refine ⟨_, _, rfl, ?_⟩
    intro run e₂ hrun
    simp only [Except.ok.injEq, Prod.mk.injEq] at hrun
    obtain ⟨h1, _⟩ := hrun
    subst h1
    exact ⟨rfl, rfl⟩

/-- C1 witness: on the stored one-node graph `demoGraph`, whose node
is bound to an unregistered tool, `run_graph` still returns `ok`. -/
theorem run_graph_traversal_error_is_data_witness :
    ∃ resp e', run_graph demoEngine 5 ⟨"g1", []⟩ = Except.ok (resp, e')
      ∧ ∀ run e₂,
          demoEngine.start_run 5 "g1" [] = Except.ok (run, e₂) →
          resp.status = run.status ∧ resp.error = run.error :=
  run_graph_traversal_error_is_data demoEngine 5 ⟨"g1", []⟩ (by decide)

/-- C2 counterexample: on `reqPhaseOrder` (nodes `a`, `b`; edges
`a → c` then `d → b`; start `a`) the check "every edge source is a
known node" has a failing instance (`d`), so under the claimed phase
order the validation error would be `unknownEdgeMsg "d"`
(`specOrderValidate` returns exactly that), yet `create_graph`
produces the later phase's error `unknownNextMsg "c"`: the handler
interleaves the source and target checks per edge. -/
theorem create_graph_phase_order_cex :
    ("d", some "b") ∈ reqPhaseOrder.edges
    ∧ "d" ∉ reqPhaseOrder.nodes.map NodeConfig.name
    ∧ specOrderValidate reqPhaseOrder = some ⟨400, unknownEdgeMsg "d"⟩
    ∧ create_graph emptyEngine reqPhaseOrder = Except.error ⟨400, unknownNextMsg "c"⟩
    ∧ unknownNextMsg "c" ≠ unknownEdgeMsg "d" :=
  ⟨by decide, by decide, by decide, rfl, by decide⟩

/-- C2 (amended): `create_graph` fails with a validation error exactly
as given by `implValidationOrder`: duplicate node names are checked
first (in node-list order); then each edge in mapping order, its
source check before its non-null-target check; then the start node;
the first failing check produces the error. -/
theorem create_graph_validation_order (e : GraphEngine) (req : CreateGraphRequest)
    (err : HttpError) :
    create_graph e req = Except.error err ↔ implValidationOrder req = some err := by
  rw [create_graph_eq]
  cases h : implValidationOrder req with
  | some e2 => simp
  | none => simp

/-- C2 witness: the order equivalence evaluated on the concrete
request `reqPhaseOrder`. -/
theorem create_graph_validation_order_witness :
    create_graph emptyEngine reqPhaseOrder = Except.error ⟨400, unknownNextMsg "c"⟩
      ↔ implValidationOrder reqPhaseOrder = some ⟨400, unknownNextMsg "c"⟩ :=
  create_graph_validation_order emptyEngine reqPhaseOrder ⟨400, unknownNextMsg "c"⟩

/-- C3: a create request whose edges reference a node name absent from
the node list (as an edge source or as a non-null edge target) is
rejected with a validation error; no `ok` result — and hence no stored
graph and no returned graph id — is produced. -/
theorem create_graph_rejects_unknown_edge_ref (e : GraphEngine)
    (req : CreateGraphRequest)
    (h : ∃ p ∈ req.edges, p.1 ∉ req.nodes.map NodeConfig.name
         ∨ ∃ t, p.2 = some t ∧ t ∉ req.nodes.map NodeConfig.name) :
    (∃ err, create_graph e req = Except.error err)
    ∧ ∀ resp e', create_graph e req ≠ Except.ok (resp, e') := by
  have hmain : ∃ err, create_graph e req = Except.error err := by
    rw [create_graph_eq]
    cases hv : implValidationOrder req with
    | some err => exact ⟨err, rfl⟩
    | none =>
      exfalso
      unfold implValidationOrder at hv
      cases hd : firstDupName [] req.nodes with
      | some n =>
        simp only [hd] at hv
        exact Option.noConfusion hv
      | none =>
        simp only [hd] at hv
        cases hc : edgeCheck (req.nodes.map NodeConfig.name) req.edges with
        | some err2 =>
          simp only [hc] at hv
          exact Option.noConfusion hv
        | none => exact edgeCheck_ne_none _ _ h hc
  refine ⟨hmain, ?_⟩
  intro resp e' hok
  obtain ⟨err, herr⟩ := hmain
  rw [herr] at hok
  cases hok

/-- C3 witness: the spec's Scenario B — edges reference node `c` not
present in the node list. -/
theorem create_graph_rejects_unknown_edge_ref_witness :
    (∃ err, create_graph emptyEngine reqUnknownTarget = Except.error err)
    ∧ ∀ resp e', create_graph emptyEngine reqUnknownTarget ≠ Except.ok (resp, e') :=
  create_graph_rejects_unknown_edge_ref emptyEngine reqUnknownTarget
    ⟨("a", some "c"), by decide, Or.inr ⟨"c", rfl, by decide⟩⟩

/-- C4: lookup failures are raised synchronously as a 404 not-found
error: `run_graph` on a graph id absent from the graph table errors
(so no run is created — no engine state is returned), and
`get_run_state` on a run id absent from the run table errors (no Run
is fabricated or cached). -/
theorem lookup_failures_raise_not_found (e : GraphEngine) (fuel : Nat)
    (req : RunGraphRequest) (rid : String)
    (h1 : List.lookup req.graph_id e.graphs = none)
    (h2 : List.lookup rid e.runs = none) :
    run_graph e fuel req = Except.error ⟨404, "Graph not found: " ++ req.graph_id⟩
    ∧ get_run_state e rid = Except.error ⟨404, "Run not found: " ++ rid⟩ := by
  constructor
  · unfold run_graph GraphEngine.start_run
    rw [h1]
  · unfold get_run_state GraphEngine.get_run
    rw [h2]

/-- C4 witness: the empty engine rejects an unknown graph id and an
unknown run id with 404 errors (Scenario D). -/
theorem lookup_failures_raise_not_found_witness :
    run_graph emptyEngine 1 ⟨"nope", []⟩
        = Except.error ⟨404, "Graph not found: " ++ "nope"⟩
    ∧ get_run_state emptyEngine "nada"
        = Except.error ⟨404, "Run not found: " ++ "nada"⟩ :=
  lookup_failures_raise_not_found emptyEngine 1 ⟨"nope", []⟩ "nada" rfl rfl

/-- C5: the four validation failure messages of `create_graph` are
pairwise distinct for all node names, and the duplicate-node and
unknown-node messages name the offending node (fixed distinguishing
text followed by the node name). -/
theorem validation_error_messages_distinct (n m : String) :
    (dupNodeMsg n = "Duplicate node name: " ++ n
      ∧ unknownEdgeMsg n = "Unknown node in edges: " ++ n
      ∧ unknownNextMsg n = "Unknown next node: " ++ n
      ∧ badStartMsg = "start_node must be one of the nodes")
    ∧ dupNodeMsg n ≠ unknownEdgeMsg m
    ∧ dupNodeMsg n ≠ unknownNextMsg m
    ∧ dupNodeMsg n ≠ badStartMsg
    ∧ unknownEdgeMsg n ≠ unknownNextMsg m
    ∧ unknownEdgeMsg n ≠ badStartMsg
    ∧ unknownNextMsg n ≠ badStartMsg := by
  refine ⟨⟨rfl, rfl, rfl, rfl⟩, ?_, ?_, ?_, ?_, ?_, ?_⟩
  · simp only [dupNodeMsg, unknownEdgeMsg]
    exact string_append_ne _ _ _ _ 1 (by decide) (by decide) (by decide)
  · simp only [dupNodeMsg, unknownNextMsg]
    exact string_append_ne _ _ _ _ 1 (by decide) (by decide) (by decide)
  · simp only [dupNodeMsg, badStartMsg]
    exact string_append_ne_right _ _ _ 1 (by decide) (by decide) (by decide)
  · simp only [unknownEdgeMsg, unknownNextMsg]
    exact string_append_ne _ _ _ _ 10 (by decide) (by decide) (by decide)
  · simp only [unknownEdgeMsg, badStartMsg]
    exact string_append_ne_right _ _ _ 1 (by decide) (by decide) (by decide)
  · simp only [unknownNextMsg, badStartMsg]
    exact string_append_ne_right _ _ _ 1 (by decide) (by decide) (by decide)

/-- C6 counterexample: the state mapping is NOT carried under the same
field name in the two responses — `run_graph` serializes it as
`final_state`, `get_run_state` as `state`. -/
theorem response_shape_cex :
    "final_state" ∈ runGraphResponseFields
    ∧ "final_state" ∉ getRunStateResponseFields
    ∧ "state" ∈ getRunStateResponseFields
    ∧ "state" ∉ runGraphResponseFields := by decide

/-- C6 (amended): the get-run-state response has the run-graph
response's shape with the state mapping renamed from `final_state` to
`state`, plus the additional `current_node` field (null if the run
finished successfully); for a run produced by `start_run`, the two
responses agree on every shared datum. -/
theorem get_run_state_response_shape (e : GraphEngine) (fuel : Nat) (gid : String)
    (st : StateMap) (run : Run) (e' : GraphEngine)
    (h : e.start_run fuel gid st = Except.ok (run, e')) :
    getRunStateResponseFields
      = runGraphResponseFields.take 2 ++ ["current_node"]
        ++ (runGraphResponseFields.drop 2).map
            (fun f => if f = "final_state" then "state" else f)
    ∧ (mkGetRunStateResponse run).run_id = (mkRunGraphResponse run).run_id
    ∧ (mkGetRunStateResponse run).graph_id = (mkRunGraphResponse run).graph_id
    ∧ (mkGetRunStateResponse run).state = (mkRunGraphResponse run).final_state
    ∧ (mkGetRunStateResponse run).log = (mkRunGraphResponse run).log
    ∧ (mkGetRunStateResponse run).status = (mkRunGraphResponse run).status
    ∧ (mkGetRunStateResponse run).error = (mkRunGraphResponse run).error
    ∧ (mkGetRunStateResponse run).current_node
        = (if run.status = RunStatus.success then none else run.current_node) := by
  refine ⟨by decide, rfl, rfl, rfl, rfl, rfl, rfl, ?_⟩
  by_cases hs : run.status = RunStatus.success
  · rw [if_pos hs]
    exact start_run_success_current_none e fuel gid st run e' h hs
  · rw [if_neg hs]
    rfl

/-- C6 witness: the successful two-step run of `lineGraph`. -/
theorem get_run_state_response_shape_witness :
    getRunStateResponseFields
      = runGraphResponseFields.take 2 ++ ["current_node"]
        ++ (runGraphResponseFields.drop 2).map
            (fun f => if f = "final_state" then "state" else f)
    ∧ (mkGetRunStateResponse doneRun).run_id = (mkRunGraphResponse doneRun).run_id
    ∧ (mkGetRunStateResponse doneRun).graph_id = (mkRunGraphResponse doneRun).graph_id
    ∧ (mkGetRunStateResponse doneRun).state = (mkRunGraphResponse doneRun).final_state
    ∧ (mkGetRunStateResponse doneRun).log = (mkRunGraphResponse doneRun).log
    ∧ (mkGetRunStateResponse doneRun).status = (mkRunGraphResponse doneRun).status
    ∧ (mkGetRunStateResponse doneRun).error = (mkRunGraphResponse doneRun).error
    ∧ (mkGetRunStateResponse doneRun).current_node
        = (if doneRun.status = RunStatus.success then none else doneRun.current_node) :=
  get_run_state_response_shape lineEngine 5 "g2" [] doneRun lineEngineAfter rfl

/-- C7: the log of a traversal is the initial log extended by exactly
the visitation trace — one record per successfully executed node, in
visitation order, with no record for the step whose tool invocation
(or resolution) failed — and both response constructors serialize it
order-preserving into entries with exactly the fields `node`, `tool`,
`state`. -/
theorem run_log_is_visitation_order (reg : ToolRegistry) (g : Graph) (fuel : Nat)
    (run : Run) (l : List LogRecord) :
    (traverse reg g fuel run).log
      = run.log ++ visitTrace reg g fuel run.current_node run.state
    ∧ mkLogEntries l = l.map (fun r => LogEntry.mk r.node r.tool r.state)
    ∧ (mkRunGraphResponse run).log = mkLogEntries run.log
    ∧ (mkGetRunStateResponse run).log = mkLogEntries run.log :=
  ⟨traverse_log reg g fuel run, rfl, rfl, rfl⟩

/-- C8: reading a run is idempotent and non-mutating: a successful
`get_run_state` call returns the engine unchanged, and repeating the
call on that engine returns the identical response (same log, state,
and status). -/
theorem get_run_state_idempotent (e : GraphEngine) (rid : String)
    (resp : GetRunStateResponse) (e₁ : GraphEngine)
    (h : get_run_state e rid = Except.ok (resp, e₁)) :
    e₁ = e ∧ get_run_state e₁ rid = Except.ok (resp, e₁) := by
  unfold get_run_state GraphEngine.get_run at h
  cases hl : List.lookup rid e.runs with
  | none => rw [hl] at h; cases h
  | some r =>
    rw [hl] at h
    simp only [Except.ok.injEq, Prod.mk.injEq] at h
    obtain ⟨h1, h2⟩ := h
    subst h2
    subst h1
    refine ⟨rfl, ?_⟩
    unfold get_run_state GraphEngine.get_run
    rw [hl]

/-- C8 witness: reading the stored completed run `doneRun` twice. -/
theorem get_run_state_idempotent_witness :
    doneEngine = doneEngine
    ∧ get_run_state doneEngine "r0"
        = Except.ok (mkGetRunStateResponse doneRun, doneEngine) :=
  get_run_state_idempotent doneEngine "r0" (mkGetRunStateResponse doneRun)
    doneEngine rfl

/-- C9: `initial_state` is optional with `default_factory=dict`: a
request constructed without it carries the empty mapping, and running
it is identical to running a request with an explicitly empty
`initial_state`. -/
theorem initial_state_defaults_to_empty (e : GraphEngine) (fuel : Nat) (gid : String) :
    (mkRunGraphRequest gid none).initial_state = []
    ∧ run_graph e fuel (mkRunGraphRequest gid none)
      = run_graph e fuel (mkRunGraphRequest gid (some [])) :=
  ⟨rfl, rfl⟩

/-- C10: a create request with an empty node list always fails
validation — with the invalid-start-node error when the edge mapping
is empty, and with an unknown-edge-source error otherwise — so no
graph is created. -/
theorem create_graph_empty_nodes_fails (e : GraphEngine) (req : CreateGraphRequest)
    (h : req.nodes = []) :
    ∃ err, create_graph e req = Except.error err
      ∧ (err = ⟨400, badStartMsg⟩ ∨ ∃ n, err = ⟨400, unknownEdgeMsg n⟩) := by
  rw [create_graph_eq]
  cases he : req.edges with
  | nil =>
    refine ⟨⟨400, badStartMsg⟩, ?_, Or.inl rfl⟩
    simp [implValidationOrder, h, he, firstDupName, edgeCheck]
  | cons p rest =>
    obtain ⟨f, t⟩ := p
    refine ⟨⟨400, unknownEdgeMsg f⟩, ?_, Or.inr ⟨f, rfl⟩⟩
    simp [implValidationOrder, h, he, firstDupName, edgeCheck]

/-- C10 witness: the empty node list with a nonempty edge mapping. -/
theorem create_graph_empty_nodes_fails_witness :
    ∃ err, create_graph emptyEngine reqEmptyNodes = Except.error err
      ∧ (err = ⟨400, badStartMsg⟩ ∨ ∃ n, err = ⟨400, unknownEdgeMsg n⟩) :=
  create_graph_empty_nodes_fails emptyEngine reqEmptyNodes rfl

end Workflow
